import Mathlib

/-!
Shallow embedding of the `use-form-validator` repository (a React form
validation hook):

* `src/validators.js` — the built-in validator table and the
  `createValidator` factory;
* `src/useFormValidator.js` — the form controller: `validateField`,
  `validateForm`, `handleChange`, `setValue`, `handleBlur`, `handleSubmit`,
  `resetForm`, `getFieldProps`, and the derived `isValid` flag.

JavaScript values are modelled by the inductive type `JSValue`; JS objects
used as string-keyed maps (values, touched, errors, schema) are modelled by
association lists, with `jsGet`/`jsSet` mirroring property access and
spread-update `{...prev, [k]: v}`.  JS numbers are modelled as integers
(no claim below exercises fractional values, NaN arithmetic, or
exponent/hex numeric strings).
-/

set_option maxHeartbeats 1000000

/-- A JavaScript value, restricted to the shapes the form library handles:
`undefined`, `null`, booleans, (integer) numbers, strings and arrays. -/
inductive JSValue where
  | vUndefined : JSValue
  | vNull : JSValue
  | vBool : Bool → JSValue
  | vNum : Int → JSValue
  | vStr : String → JSValue
  | vArr : List JSValue → JSValue
deriving Repr

/-- JS truthiness: `undefined`, `null`, `false`, `0` and `''` are falsy;
every other value (including any object/array) is truthy. -/
def jsTruthy : JSValue → Bool
  | .vUndefined => false
  | .vNull => false
  | .vBool b => b
  | .vNum n => n != 0
  | .vStr s => s != ""
  | .vArr _ => true

mutual

/-- JS `ToString` on the modelled values (array elements join with `,`,
with `null`/`undefined` elements printing as empty, as in `Array.prototype.toString`). -/
def jsToString : JSValue → String
  | .vUndefined => "undefined"
  | .vNull => "null"
  | .vBool true => "true"
  | .vBool false => "false"
  | .vNum n => toString n
  | .vStr s => s
  | .vArr xs => String.intercalate "," (jsToStringList xs)

/-- Element-wise stringification for array joining. -/
def jsToStringList : List JSValue → List String
  | [] => []
  | .vNull :: xs => "" :: jsToStringList xs
  | .vUndefined :: xs => "" :: jsToStringList xs
  | x :: xs => jsToString x :: jsToStringList xs

end

/-- Whitespace stripped by JS `ToNumber` before parsing. -/
def isJsSpace (c : Char) : Bool := c = ' ' || c = '\t' || c = '\n' || c = '\r'

/-- Decimal-digit run to a number; `none` on any non-digit. -/
def digitsToNat : List Char → Nat → Option Nat
  | [], acc => some acc
  | c :: rest, acc =>
      if c.isDigit then digitsToNat rest (acc * 10 + (c.toNat - 48)) else none

/-- JS `Number(string)` restricted to integer literals: the trimmed empty
string is `0`, an optional sign followed by digits parses, anything else is
NaN (`none`).  Fractional, exponent and hex forms are outside the fragment
exercised by the claims. -/
def jsStrToNum (s : String) : Option Int :=
  match (((s.data.dropWhile isJsSpace).reverse.dropWhile isJsSpace).reverse) with
  | [] => some 0
  | '-' :: rest =>
      if rest = [] then none else (digitsToNat rest 0).map (fun n => -(n : Int))
  | '+' :: rest =>
      if rest = [] then none else (digitsToNat rest 0).map (fun n => (n : Int))
  | cs => (digitsToNat cs 0).map (fun n => (n : Int))

/-- JS `ToNumber`; `none` stands for NaN. -/
def jsToNumber : JSValue → Option Int
  | .vUndefined => none
  | .vNull => some 0
  | .vBool b => some (if b then 1 else 0)
  | .vNum n => some n
  | .vStr s => jsStrToNum s
  | .vArr xs => jsStrToNum (jsToString (.vArr xs))

/-- The JS `.length` property: defined for strings and arrays, `undefined`
(`none`) otherwise. -/
def jsLength : JSValue → Option Int
  | .vStr s => some (s.length : Int)
  | .vArr xs => some (xs.length : Int)
  | _ => none

/-- JS `>=` after `ToNumber` coercion of both sides: any NaN operand makes
the comparison false. -/
def optGE (a b : Option Int) : Bool :=
  match a, b with
  | some x, some y => x ≥ y
  | _, _ => false

/-- JS `<=` after `ToNumber` coercion of both sides. -/
def optLE (a b : Option Int) : Bool :=
  match a, b with
  | some x, some y => x ≤ y
  | _, _ => false

/-- A registry validator: called as `v(value, ...params)`; in the source the
built-ins return an error string (`''` = success). -/
def Validator : Type := JSValue → List JSValue → JSValue

namespace Validators

/-- `required` from `src/validators.js`: null/undefined/empty string and the
empty array fail, everything else (including `0` and `false`) passes. -/
def required : Validator := fun value _ =>
  match value with
  | .vNull => .vStr "This field is required"
  | .vUndefined => .vStr "This field is required"
  | .vStr "" => .vStr "This field is required"
  | .vArr [] => .vStr "This field is required"
  | _ => .vStr ""

/-- Character class of the local part of the email regex in
`src/validators.js`: alphanumerics plus the codepoints of
`! # $ % & ' * + . / = ? ^ _ \x60 \x7b | \x7d ~ -`. -/
def isLocalChar (c : Char) : Bool :=
  c.isAlphanum ||
    [33, 35, 36, 37, 38, 39, 42, 43, 46, 47, 61, 63, 94, 95, 96,
     123, 124, 125, 126, 45].contains c.toNat

/-- Character class of a domain segment of the email regex: alphanumerics
and hyphen. -/
def isDomainChar (c : Char) : Bool :=
  c.isAlphanum || c = '-'

/-- The anchored email regex of `src/validators.js`: a non-empty local part,
one `@`, then dot-separated non-empty domain segments. -/
def emailMatches (s : String) : Bool :=
  match s.splitOn "@" with
  | [localPart, domain] =>
      localPart ≠ "" && localPart.all isLocalChar &&
        (domain.splitOn ".").all (fun seg => seg ≠ "" && seg.all isDomainChar)
  | _ => false

/-- `email` from `src/validators.js`: falsy values pass; otherwise the value
is tested (after string coercion, as `RegExp.test` does) against the regex. -/
def email : Validator := fun value _ =>
  if jsTruthy value = false then .vStr ""
  else if emailMatches (jsToString value) then .vStr ""
  else .vStr "Please enter a valid email address"

/-- Reads the first extra argument of a validator, applying the JS default
`d` when the argument is missing or `undefined`. -/
def paramOr (params : List JSValue) (d : JSValue) : JSValue :=
  match params.head? with
  | none => d
  | some .vUndefined => d
  | some p => p

/-- `minLength` from `src/validators.js` (`length` defaults to 1): falsy
values pass, otherwise `value.length >= length` must hold. -/
def minLength : Validator := fun value params =>
  if jsTruthy value = false then .vStr ""
  else
    let len := paramOr params (.vNum 1)
    if optGE (jsLength value) (jsToNumber len) then .vStr ""
    else .vStr ("Must be at least " ++ jsToString len ++ " characters")

/-- `maxLength` from `src/validators.js` (`length` defaults to 100). -/
def maxLength : Validator := fun value params =>
  if jsTruthy value = false then .vStr ""
  else
    let len := paramOr params (.vNum 100)
    if optLE (jsLength value) (jsToNumber len) then .vStr ""
    else .vStr ("Must be no more than " ++ jsToString len ++ " characters")

/-- `number` from `src/validators.js`: falsy values pass, otherwise
`Number(value)` must not be NaN. -/
def numberV : Validator := fun value _ =>
  if jsTruthy value = false then .vStr ""
  else if (jsToNumber value).isSome then .vStr ""
  else .vStr "Must be a number"

/-- `min` from `src/validators.js`: falsy values pass, otherwise
`Number(value) >= min`. -/
def minV : Validator := fun value params =>
  if jsTruthy value = false then .vStr ""
  else
    let m := paramOr params .vUndefined
    if optGE (jsToNumber value) (jsToNumber m) then .vStr ""
    else .vStr ("Must be at least " ++ jsToString m)

/-- `max` from `src/validators.js`: falsy values pass, otherwise
`Number(value) <= max`. -/
def maxV : Validator := fun value params =>
  if jsTruthy value = false then .vStr ""
  else
    let m := paramOr params .vUndefined
    if optLE (jsToNumber value) (jsToNumber m) then .vStr ""
    else .vStr ("Must be no more than " ++ jsToString m)

end Validators

/-- The built-in validator table of `src/validators.js`, as a name lookup.
`pattern`, `matches`, `url`, `date` and `compose` also exist in the source
but depend on host regex/URL/Date objects or are higher-order (not of the
`(value, ...params)` shape); no claim exercises them, so they are outside
the modelled registry.  Theorems about unknown-name dispatch quantify over
an arbitrary registry, so they do not depend on this table's domain. -/
def builtInValidators : String → Option Validator
  | "required" => some Validators.required
  | "email" => some Validators.email
  | "minLength" => some Validators.minLength
  | "maxLength" => some Validators.maxLength
  | "number" => some Validators.numberV
  | "min" => some Validators.minV
  | "max" => some Validators.maxV
  | _ => none

/-- JS object property read `m[k]` on a string-keyed object modelled as an
association list: the first binding of the key, if any. -/
def jsGet {α : Type} (m : List (String × α)) (k : String) : Option α :=
  match m with
  | [] => none
  | p :: ps => if p.1 == k then some p.2 else jsGet ps k

/-- Property read with a default for `undefined`/missing. -/
def jsGetD {α : Type} (m : List (String × α)) (k : String) (d : α) : α :=
  (jsGet m k).getD d

/-- JS spread update `{...m, [k]: v}`: an existing key keeps its position
with the new value, a new key is appended. -/
def jsSet {α : Type} (m : List (String × α)) (k : String) (v : α) : List (String × α) :=
  if m.any (fun p => p.1 == k) then
    m.map (fun p => if p.1 == k then (k, v) else p)
  else m ++ [(k, v)]

/-- `Object.keys`. -/
def jsKeys {α : Type} (m : List (String × α)) : List String := m.map (fun p => p.1)

/-- The `validator` field of an object-shaped rule: a registry name, a raw
function, or something else (skipped by both `typeof` probes). -/
inductive RuleValidator where
  | name : String → RuleValidator
  | fn : (JSValue → List JSValue → JSValue) → RuleValidator
  | other : RuleValidator

/-- One entry of a rule list, mirroring the `typeof` dispatch in
`validateField`: a built-in name, an `{validator, message, params}` object,
or a free function called with `(value, allValues)`. -/
inductive Rule where
  | str : String → Rule
  | obj : RuleValidator → JSValue → List JSValue → Rule
  | fn : (JSValue → List (String × JSValue) → JSValue) → Rule

/-- A field's schema entry, mirroring the top-level classification in
`validateField`: an array of rules, a bare validator name, a free function,
or a single `{validator, message, params}` object. -/
inductive FieldRules where
  | list : List Rule → FieldRules
  | str : String → FieldRules
  | fn : (JSValue → List (String × JSValue) → JSValue) → FieldRules
  | obj : RuleValidator → JSValue → List JSValue → FieldRules

/-- Truthiness of a schema entry for the `if (!validationSchema[name])`
guard: only the empty-string entry is falsy (objects, arrays and functions
are always truthy). -/
def fieldRulesTruthy : FieldRules → Bool
  | .str s => s != ""
  | _ => true

/-- The error an object rule reports on failure:
`message || ` the generated `Validation failed for {fieldName}` string. -/
def objFallback (name : String) (message : JSValue) : JSValue :=
  if jsTruthy message then message else .vStr ("Validation failed for " ++ name)

/-- The `{validator, message, params}` branch of `validateField`: the
underlying call's result is treated as a truthy success signal; on a falsy
result the rule yields `message` if truthy, else the generated
`Validation failed for {name}` fallback.  A string `validator` absent from
the registry, or a `validator` of any other shape, yields nothing. -/
def objRuleError (validators : String → Option Validator) (name : String)
    (value : JSValue) (rv : RuleValidator) (message : JSValue)
    (params : List JSValue) : Option JSValue :=
  match rv with
  | .name s =>
      match validators s with
      | some v =>
          if jsTruthy (v value params) then none else some (objFallback name message)
      | none => none
  | .fn f =>
      if jsTruthy (f value params) then none else some (objFallback name message)
  | .other => none

/-- One iteration of the rule-list loop in `validateField`: the error the
rule contributes, if any.  A string rule invokes the registry validator with
the bare value and contributes its result when truthy; an object rule
follows `objRuleError`; a function rule is called with `(value, values)`
and contributes its result when truthy. -/
def ruleError (validators : String → Option Validator)
    (allValues : List (String × JSValue)) (name : String) (value : JSValue) :
    Rule → Option JSValue
  | .str s =>
      match validators s with
      | some v => if jsTruthy (v value []) then some (v value []) else none
      | none => none
  | .obj rv m ps => objRuleError validators name value rv m ps
  | .fn f => if jsTruthy (f value allValues) then some (f value allValues) else none

/-- The rule-list loop of `validateField`: first contributed error wins,
empty string if the list is exhausted. -/
def listRuleError (validators : String → Option Validator)
    (allValues : List (String × JSValue)) (name : String) (value : JSValue) :
    List Rule → JSValue
  | [] => .vStr ""
  | r :: rs =>
      match ruleError validators allValues name value r with
      | some e => e
      | none => listRuleError validators allValues name value rs

/-- The `typeof`-dispatch of `validateField` over the shape of a (truthy)
schema entry: the rule-list loop, the bare-name branch
(`validators[fieldRules](value) || ''`), the free-function branch
(`fieldRules(value, values) || ''`), and the single-object branch. -/
def fieldRulesError (validators : String → Option Validator)
    (allValues : List (String × JSValue)) (name : String) (value : JSValue) :
    FieldRules → JSValue
  | .list rules => listRuleError validators allValues name value rules
  | .str s =>
      match validators s with
      | some v => if jsTruthy (v value []) then v value [] else .vStr ""
      | none => .vStr ""
  | .fn f => if jsTruthy (f value allValues) then f value allValues else .vStr ""
  | .obj rv m ps => (objRuleError validators name value rv m ps).getD (.vStr "")

/-- `validateField` from `src/useFormValidator.js`: resolves a single
field's error against the schema (empty result for a missing or falsy
schema entry).  `allValues` is the hook's captured `values` state (used by
function rules). -/
def validateField (validators : String → Option Validator)
    (schema : List (String × FieldRules)) (allValues : List (String × JSValue))
    (name : String) (value : JSValue) : JSValue :=
  match jsGet schema name with
  | none => .vStr ""
  | some fr =>
      if fieldRulesTruthy fr = false then .vStr ""
      else fieldRulesError validators allValues name value fr

/-- The controller's state: `values`, `touched`, `errors` objects plus the
`isSubmitting` flag. -/
structure FormState where
  values : List (String × JSValue)
  touched : List (String × Bool)
  errors : List (String × JSValue)
  isSubmitting : Bool
deriving Repr

/-- The hook's options, all defaulting to enabled as in the source. -/
structure FormOptions where
  validateOnChange : Bool := true
  validateOnBlur : Bool := true
  validateOnSubmit : Bool := true
deriving Repr

/-- The option defaults of `useFormValidator`. -/
def defaultOptions : FormOptions := {}

/-- Initial hook state: caller-supplied values, empty touched/errors, not
submitting. -/
def initState (initialValues : List (String × JSValue)) : FormState :=
  { values := initialValues, touched := [], errors := [], isSubmitting := false }

/-- Truthiness of `touched[name]`: `true` entries are truthy, `false` and
missing entries are falsy. -/
def touchedFlag (t : List (String × Bool)) (name : String) : Bool :=
  (jsGet t name).getD false

/-- `handleChange` (and the identical validation logic of `setValue`):
writes the new value, and — only when validate-on-change is enabled and the
field is already touched — recomputes that field's error against the
still-captured old `values` and writes that single entry. -/
def handleChange (validators : String → Option Validator)
    (schema : List (String × FieldRules)) (opts : FormOptions)
    (s : FormState) (name : String) (value : JSValue) : FormState :=
  { s with
    values := jsSet s.values name value,
    errors :=
      if opts.validateOnChange && touchedFlag s.touched name then
        jsSet s.errors name (validateField validators schema s.values name value)
      else s.errors }

/-- `setValue` from the source: the same body as `handleChange`, taking the
name/value pair directly instead of an event object. -/
def setValue (validators : String → Option Validator)
    (schema : List (String × FieldRules)) (opts : FormOptions)
    (s : FormState) (name : String) (value : JSValue) : FormState :=
  { s with
    values := jsSet s.values name value,
    errors :=
      if opts.validateOnChange && touchedFlag s.touched name then
        jsSet s.errors name (validateField validators schema s.values name value)
      else s.errors }

/-- `handleBlur`: marks the field touched; when validate-on-blur is enabled,
recomputes that field's error on the current stored value. -/
def handleBlur (validators : String → Option Validator)
    (schema : List (String × FieldRules)) (opts : FormOptions)
    (s : FormState) (name : String) : FormState :=
  { s with
    touched := jsSet s.touched name true,
    errors :=
      if opts.validateOnBlur then
        jsSet s.errors name
          (validateField validators schema s.values name (jsGetD s.values name .vUndefined))
      else s.errors }

/-- The loop body of `validateForm`: starting from an empty object and a
clear `hasErrors` flag, each schema key whose resolved error is truthy is
written into the accumulator and raises the flag. -/
def validateFormErrors (validators : String → Option Validator)
    (schema : List (String × FieldRules)) (values : List (String × JSValue)) :
    List (String × JSValue) × Bool :=
  (jsKeys schema).foldl
    (fun acc f =>
      if jsTruthy (validateField validators schema values f (jsGetD values f .vUndefined)) then
        (jsSet acc.1 f (validateField validators schema values f (jsGetD values f .vUndefined)),
          true)
      else acc)
    ([], false)

/-- `validateForm`: replaces the error map wholesale with the freshly
computed failing entries and returns `!hasErrors`. -/
def validateForm (validators : String → Option Validator)
    (schema : List (String × FieldRules)) (s : FormState) : FormState × Bool :=
  ({ s with errors := (validateFormErrors validators schema s.values).1 },
    !(validateFormErrors validators schema s.values).2)

/-- The touched map installed by `handleSubmit`:
`Object.keys(values).reduce((acc, key) => ({...acc, [key]: true}), {})`. -/
def submitTouched (values : List (String × JSValue)) : List (String × Bool) :=
  (jsKeys values).foldl (fun acc k => jsSet acc k true) []

/-- The validation gate of `handleSubmit`: runs `validateForm` when
validate-on-submit is enabled, else treats the form as valid. -/
def submitValidate (validators : String → Option Validator)
    (schema : List (String × FieldRules)) (opts : FormOptions)
    (s1 : FormState) : FormState × Bool :=
  if opts.validateOnSubmit then validateForm validators schema s1 else (s1, true)

/-- The tail of `handleSubmit` after validation: `setIsSubmitting(true)`,
the guarded `await onSubmit(values, helpers)`, `setIsSubmitting(false)`. -/
def runCallback (cb : Option (List (String × JSValue) → FormState → FormState))
    (valid : Bool) (s2 : FormState) : FormState × Bool :=
  match cb, valid with
  | some f, true =>
      ({ f s2.values { s2 with isSubmitting := true } with isSubmitting := false }, true)
  | _, _ => ({ s2 with isSubmitting := false }, false)

/-- `handleSubmit`: replaces the touched map with every current value key,
runs the validation gate, and invokes the callback only when valid.  The
callback is modelled as an optional state transformer receiving the values
object (it may use the `setErrors`/`resetForm` helpers); whatever it does —
including raising, which the source catches — `isSubmitting` ends up
`false`.  The second component reports whether the callback was invoked. -/
def handleSubmit (validators : String → Option Validator)
    (schema : List (String × FieldRules)) (opts : FormOptions)
    (cb : Option (List (String × JSValue) → FormState → FormState))
    (s : FormState) : FormState × Bool :=
  runCallback cb
    (submitValidate validators schema opts { s with touched := submitTouched s.values }).2
    (submitValidate validators schema opts { s with touched := submitTouched s.values }).1

/-- The JS `||` between the `newValues` object and `initialValues` inside
`resetForm`: a JS object is always truthy, so the left operand is always
taken and the right one is dead. -/
def jsObjOr (a : List (String × JSValue)) (_b : List (String × JSValue)) :
    List (String × JSValue) := a

/-- `resetForm(newValues = {})`: with the default parameter `{}` applied for
a missing argument, sets values to `newValues || initialValues`, and clears
touched, errors and `isSubmitting`. -/
def resetForm (initialValues : List (String × JSValue))
    (newValues : Option (List (String × JSValue))) : FormState :=
  { values := jsObjOr (newValues.getD []) initialValues,
    touched := [], errors := [], isSubmitting := false }

/-- The `name`/`value` components of `getFieldProps` (the two event handlers
it also packages are the operations modelled above). -/
structure FieldProps where
  name : String
  value : JSValue

/-- `getFieldProps`: the bound value is `values[name] || ''`. -/
def getFieldProps (values : List (String × JSValue)) (name : String) : FieldProps :=
  { name := name,
    value :=
      if jsTruthy (jsGetD values name .vUndefined) then jsGetD values name .vUndefined
      else .vStr "" }

/-- The derived `isValid` flag: `Object.keys(errors).length === 0`. -/
def isValidOf (s : FormState) : Bool := (jsKeys s.errors).length == 0

/-- The `defaultMessage` argument of `createValidator`: absent, a string, or
a message-computing function. -/
inductive CVMsg where
  | absent : CVMsg
  | str : String → CVMsg
  | fnMsg : (JSValue → JSValue → String) → CVMsg

/-- What `createValidator`'s produced validator can return: a string, or —
when `defaultMessage` is a function — that function value itself. -/
inductive CVResult where
  | str : String → CVResult
  | func : (JSValue → JSValue → String) → CVResult

/-- `createValidator(validatorFn, defaultMessage)` from `src/validators.js`:
the produced validator returns `''` on a truthy predicate result and
`defaultMessage || 'Validation failed'` otherwise.  A function-valued
`defaultMessage` is truthy, so it is returned as-is, never invoked. -/
def createValidator (validatorFn : JSValue → JSValue → JSValue)
    (defaultMessage : CVMsg) (value : JSValue) (values : JSValue) : CVResult :=
  if jsTruthy (validatorFn value values) then .str ""
  else
    match defaultMessage with
    | .absent => .str "Validation failed"
    | .str s => if s = "" then .str "Validation failed" else .str s
    | .fnMsg f => .func f

/-- The reachable state used against claim C3: default options, schema
`{name: 'required'}`, initial values `{name: 'hello'}`, then a blur on
`name` (which passes validation). -/
def c3State : FormState :=
  handleBlur builtInValidators [("name", FieldRules.str "required")] defaultOptions
    (initState [("name", JSValue.vStr "hello")]) "name"

/-- The predicate of the repository's own `createValidator` test:
`(value, multiplier) => parseInt(value) % multiplier === 0`. -/
def multipleOfPred : JSValue → JSValue → JSValue := fun value multiplier =>
  match jsToNumber value, jsToNumber multiplier with
  | some a, some b => .vBool (decide (b ≠ 0 ∧ a % b = 0))
  | _, _ => .vBool false

/-- The message function of that test:
`(value, multiplier) => "Must be a multiple of " + multiplier`. -/
def multipleOfMsg : JSValue → JSValue → String := fun _ multiplier =>
  "Must be a multiple of " ++ jsToString multiplier


/-! Helper lemmas about the association-list object model. -/

theorem jsGet_map_set_self {α : Type} (k : String) (v : α) :
    ∀ m : List (String × α), m.any (fun p => p.1 == k) = true →
      jsGet (m.map (fun p => if p.1 == k then (k, v) else p)) k = some v := by
  intro m
  induction m with
  | nil => intro h; simp at h
  | cons p ps ih =>
    intro h
    by_cases hp : (p.1 == k) = true
    · simp [jsGet, hp]
    · have hps : ps.any (fun p => p.1 == k) = true := by
        simp only [List.any_cons, Bool.or_eq_true] at h
        exact h.resolve_left hp
      simp only [List.map_cons, if_neg hp, jsGet, Bool.not_eq_true] at *
      exact ih hps

theorem jsGet_append_single_self {α : Type} (k : String) (v : α) :
    ∀ m : List (String × α), m.any (fun p => p.1 == k) = false →
      jsGet (m ++ [(k, v)]) k = some v := by
  intro m
  induction m with
  | nil => intro _; simp [jsGet]
  | cons p ps ih =>
    intro h
    simp only [List.any_cons, Bool.or_eq_false_iff] at h
    simp only [List.cons_append, jsGet]
    rw [if_neg (by simp [h.1])]
    exact ih h.2

/-- Writing key `k` makes `m[k]` read back the written value. -/
theorem jsGet_set_self {α : Type} (m : List (String × α)) (k : String) (v : α) :
    jsGet (jsSet m k v) k = some v := by
  unfold jsSet
  by_cases h : m.any (fun p => p.1 == k) = true
  · rw [if_pos h]; exact jsGet_map_set_self k v m h
  · rw [if_neg h]
    exact jsGet_append_single_self k v m (Bool.eq_false_iff.mpr h)

theorem jsGet_map_set_ne {α : Type} (k k' : String) (v : α) (hne : k' ≠ k) :
    ∀ m : List (String × α),
      jsGet (m.map (fun p => if p.1 == k then (k, v) else p)) k' = jsGet m k' := by
  have h1 : (k == k') = false := by
    simp only [beq_eq_false_iff_ne, ne_eq]
    exact fun h => hne h.symm
  intro m
  induction m with
  | nil => rfl
  | cons p ps ih =>
    by_cases hp : (p.1 == k) = true
    · have hp1 : p.1 = k := by simpa using hp
      have h2 : (p.1 == k') = false := by rw [hp1]; exact h1
      simp only [List.map_cons, if_pos hp, jsGet]
      rw [if_neg (by simp [h1]), if_neg (by simp [h2])]
      exact ih
    · simp only [List.map_cons, if_neg hp, jsGet]
      by_cases hq : (p.1 == k') = true
      · rw [if_pos hq, if_pos hq]
      · rw [if_neg hq, if_neg hq]
        exact ih

theorem jsGet_append_single_ne {α : Type} (k k' : String) (v : α) (hne : k' ≠ k) :
    ∀ m : List (String × α), jsGet (m ++ [(k, v)]) k' = jsGet m k' := by
  have h1 : (k == k') = false := by
    simp only [beq_eq_false_iff_ne, ne_eq]
    exact fun h => hne h.symm
  intro m
  induction m with
  | nil =>
    simp only [List.nil_append, jsGet]
    rw [if_neg (by simp [h1])]
  | cons p ps ih =>
    simp only [List.cons_append, jsGet]
    by_cases hq : (p.1 == k') = true
    · rw [if_pos hq, if_pos hq]
    · rw [if_neg hq, if_neg hq]
      exact ih

/-- Writing key `k` leaves every other key's read unchanged. -/
theorem jsGet_set_ne {α : Type} (m : List (String × α)) (k k' : String) (v : α)
    (hne : k' ≠ k) : jsGet (jsSet m k v) k' = jsGet m k' := by
  unfold jsSet
  by_cases h : m.any (fun p => p.1 == k) = true
  · rw [if_pos h]; exact jsGet_map_set_ne k k' v hne m
  · rw [if_neg h]; exact jsGet_append_single_ne k k' v hne m

/-- Folding `true`-writes over a key list: a key reads back `true` exactly
when it occurs in the list (or was already set in the accumulator). -/
theorem foldl_setTrue_get :
    ∀ (l : List String) (acc : List (String × Bool)) (x : String),
      jsGet (l.foldl (fun a k => jsSet a k true) acc) x =
        if x ∈ l then some true else jsGet acc x := by
  intro l
  induction l with
  | nil => intro acc x; simp
  | cons k ks ih =>
    intro acc x
    simp only [List.foldl_cons]
    rw [ih]
    by_cases hx : x ∈ ks
    · simp [hx]
    · by_cases hxk : x = k
      · subst hxk
        simp [hx, jsGet_set_self]
      · simp [hx, hxk, jsGet_set_ne acc k x true hxk]

/-- The touched map `handleSubmit` installs holds exactly the value keys. -/
theorem submitTouched_get (values : List (String × JSValue)) (x : String) :
    jsGet (submitTouched values) x =
      if x ∈ jsKeys values then some true else none := by
  unfold submitTouched
  rw [foldl_setTrue_get]
  rfl

/-- A truthy JS value is not the empty string. -/
theorem jsTruthy_ne_emptyStr {e : JSValue} (h : jsTruthy e = true) :
    e ≠ JSValue.vStr "" := by
  intro he
  subst he
  simp [jsTruthy] at h

/-- The generated fallback message of an object rule is never empty. -/
theorem fallback_ne_empty (name : String) :
    ("Validation failed for " ++ name) ≠ "" := by
  intro h
  have hlen : ("Validation failed for " ++ name).length = 0 := by rw [h]; rfl
  have h22 : ("Validation failed for " : String).length = 22 := rfl
  rw [String.length_append, h22] at hlen
  omega

/-- The resolved fallback of an object rule is always truthy. -/
theorem objFallback_truthy (name : String) (m : JSValue) :
    jsTruthy (objFallback name m) = true := by
  unfold objFallback
  by_cases hm : jsTruthy m = true
  · rw [if_pos hm]; exact hm
  · rw [if_neg hm]
    simp only [jsTruthy, bne_iff_ne, ne_eq]
    exact fallback_ne_empty name

/-- An error contributed by a rule is always truthy (object rules fall back
to the non-empty generated message when `message` is falsy). -/
theorem ruleError_truthy (validators : String → Option Validator)
    (allValues : List (String × JSValue)) (name : String) (value : JSValue) :
    ∀ (r : Rule) (e : JSValue),
      ruleError validators allValues name value r = some e → jsTruthy e = true := by
  intro r e h
  cases r with
  | str s =>
    simp only [ruleError] at h
    split at h
    · split at h
      · cases h; assumption
      · exact absurd h (by simp)
    · exact absurd h (by simp)
  | obj rv m ps =>
    simp only [ruleError, objRuleError] at h
    split at h
    · split at h
      · split at h
        · exact absurd h (by simp)
        · cases h; exact objFallback_truthy name m
      · exact absurd h (by simp)
    · split at h
      · exact absurd h (by simp)
      · cases h; exact objFallback_truthy name m
    · exact absurd h (by simp)
  | fn f =>
    simp only [ruleError] at h
    split at h
    · cases h; assumption
    · exact absurd h (by simp)

/-- The rule-list loop yields the empty string exactly when no rule
contributes an error. -/
theorem listRuleError_empty_iff (validators : String → Option Validator)
    (allValues : List (String × JSValue)) (name : String) (value : JSValue) :
    ∀ rules : List Rule,
      listRuleError validators allValues name value rules = .vStr "" ↔
        ∀ r ∈ rules, ruleError validators allValues name value r = none := by
  intro rules
  induction rules with
  | nil => simp [listRuleError]
  | cons r rs ih =>
    simp only [listRuleError]
    cases hr : ruleError validators allValues name value r with
    | some e =>
      have he := ruleError_truthy validators allValues name value r e hr
      constructor
      · intro h
        exact absurd h (jsTruthy_ne_emptyStr he)
      · intro h
        have := h r (by simp)
        rw [hr] at this
        exact absurd this (by simp)
    | none =>
      rw [ih]
      constructor
      · intro h r' hr'
        rcases List.mem_cons.mp hr' with h1 | h1
        · subst h1; exact hr
        · exact h r' h1
      · intro h r' hr'
        exact h r' (List.mem_cons_of_mem r hr')

/-- Short-circuit: if every rule of a prefix passes and the next rule
contributes error `e`, the whole list resolves to `e`. -/
theorem listRuleError_first (validators : String → Option Validator)
    (allValues : List (String × JSValue)) (name : String) (value : JSValue) :
    ∀ (l1 : List Rule) (r : Rule) (l2 : List Rule) (e : JSValue),
      (∀ r' ∈ l1, ruleError validators allValues name value r' = none) →
      ruleError validators allValues name value r = some e →
      listRuleError validators allValues name value (l1 ++ r :: l2) = e := by
  intro l1
  induction l1 with
  | nil =>
    intro r l2 e _ hr
    simp [listRuleError, hr]
  | cons r0 rs ih =>
    intro r l2 e h hr
    have h0 : ruleError validators allValues name value r0 = none := h r0 (by simp)
    simp only [List.cons_append, listRuleError, h0]
    exact ih r l2 e (fun r' hr' => h r' (List.mem_cons_of_mem r0 hr')) hr

/-- A rule that contributes no error can be removed from a rule list without
changing the resolved result. -/
theorem listRuleError_erase (validators : String → Option Validator)
    (allValues : List (String × JSValue)) (name : String) (value : JSValue)
    (rskip : Rule) (hskip : ruleError validators allValues name value rskip = none) :
    ∀ (l1 l2 : List Rule),
      listRuleError validators allValues name value (l1 ++ rskip :: l2) =
        listRuleError validators allValues name value (l1 ++ l2) := by
  intro l1
  induction l1 with
  | nil =>
    intro l2
    simp [listRuleError, hskip]
  | cons r0 rs ih =>
    intro l2
    simp only [List.cons_append, listRuleError]
    cases ruleError validators allValues name value r0 with
    | some e => rfl
    | none => exact ih l2

/-- Reduction of `validateField` once the schema entry is known. -/
theorem validateField_of_get (validators : String → Option Validator)
    (schema : List (String × FieldRules)) (allValues : List (String × JSValue))
    (name : String) (value : JSValue) (fr : FieldRules)
    (hget : jsGet schema name = some fr) :
    validateField validators schema allValues name value =
      if fieldRulesTruthy fr = false then .vStr ""
      else fieldRulesError validators allValues name value fr := by
  unfold validateField
  rw [hget]

/-- Membership in the error object built by the `validateForm` loop: a key
is present exactly when it is a schema key with a truthy resolved error (or
was already present in the accumulator). -/
theorem foldl_vfe_get (validators : String → Option Validator)
    (schema : List (String × FieldRules)) (values : List (String × JSValue)) :
    ∀ (fields : List String) (acc : List (String × JSValue) × Bool) (x : String),
      (jsGet
        (fields.foldl
          (fun acc f =>
            if jsTruthy (validateField validators schema values f (jsGetD values f .vUndefined)) then
              (jsSet acc.1 f
                  (validateField validators schema values f (jsGetD values f .vUndefined)),
                true)
            else acc)
          acc).1 x).isSome = true ↔
        ((x ∈ fields ∧
            jsTruthy (validateField validators schema values x (jsGetD values x .vUndefined)) = true)
          ∨ (jsGet acc.1 x).isSome = true) := by
  intro fields
  induction fields with
  | nil =>
    intro acc x
    simp
  | cons f fs ih =>
    intro acc x
    simp only [List.foldl_cons]
    rw [ih]
    by_cases hf :
        jsTruthy (validateField validators schema values f (jsGetD values f .vUndefined)) = true
    · rw [if_pos hf]
      by_cases hxf : x = f
      · subst hxf
        simp [jsGet_set_self, hf]
      · rw [jsGet_set_ne acc.1 f x _ hxf]
        simp [List.mem_cons, hxf]
    · rw [if_neg hf]
      by_cases hxf : x = f
      · subst hxf
        simp [List.mem_cons, hf]
      · simp [List.mem_cons, hxf]

/-- The `hasErrors` flag accumulated by the `validateForm` loop. -/
theorem foldl_vfe_flag (validators : String → Option Validator)
    (schema : List (String × FieldRules)) (values : List (String × JSValue)) :
    ∀ (fields : List String) (acc : List (String × JSValue) × Bool),
      (fields.foldl
        (fun acc f =>
          if jsTruthy (validateField validators schema values f (jsGetD values f .vUndefined)) then
            (jsSet acc.1 f
                (validateField validators schema values f (jsGetD values f .vUndefined)),
              true)
          else acc)
        acc).2 =
        (acc.2 ||
          fields.any
            (fun f =>
              jsTruthy (validateField validators schema values f (jsGetD values f .vUndefined)))) := by
  intro fields
  induction fields with
  | nil => intro acc; simp
  | cons f fs ih =>
    intro acc
    simp only [List.foldl_cons]
    rw [ih]
    by_cases hf :
        jsTruthy (validateField validators schema values f (jsGetD values f .vUndefined)) = true
    · rw [if_pos hf]
      simp [hf]
    · rw [if_neg hf]
      simp [hf]

/-- With an invalid form, the `handleSubmit` tail never invokes the callback
and only clears `isSubmitting`. -/
theorem runCallback_invalid
    (cb : Option (List (String × JSValue) → FormState → FormState)) (s2 : FormState) :
    runCallback cb false s2 = ({ s2 with isSubmitting := false }, false) := by
  cases cb <;> rfl

/-! The claims. -/

/-- Claim C1 (code behaviour at the claimed scenario): for the schema
`{password: [{validator:'minLength', params:[8], message:'too short'}]}` and
the value `'abc'`, the resolver returns the empty string, not
`'too short'` — `minLength` reports failure with the truthy error string
`'Must be at least 8 characters'`, which the object-rule branch reads as a
success signal. -/
theorem c1_object_rule_inverted :
    validateField builtInValidators
      [("password",
        FieldRules.list
          [Rule.obj (RuleValidator.name "minLength") (JSValue.vStr "too short")
            [JSValue.vNum 8]])]
      [] "password" (JSValue.vStr "abc") = JSValue.vStr "" ∧
    Validators.minLength (JSValue.vStr "abc") [JSValue.vNum 8] =
      JSValue.vStr "Must be at least 8 characters" := by
  exact ⟨rfl, rfl⟩

/-- Claim C2 (code behaviour at the claimed scenario): `resetForm()` with no
argument does not restore the construction-time initial values — the JS
default parameter `newValues = {}` is an (always truthy) empty object, so
`newValues || initialValues` yields `{}` and the values map is wiped. -/
theorem c2_resetForm_wipes_values :
    resetForm [("a", JSValue.vStr "x")] none =
      { values := [], touched := [], errors := [], isSubmitting := false } ∧
    ([] : List (String × JSValue)) ≠ [("a", JSValue.vStr "x")] := by
  constructor
  · rfl
  · simp

/-- Claim C3, counterexample: after a blur on a field that passes
validation, the error map holds the single empty-string entry for that
field — no non-empty entries — yet the derived `isValid` flag is `false`,
because it tests `Object.keys(errors).length === 0`. -/
theorem c3_counterexample :
    c3State.errors = [("name", JSValue.vStr "")] ∧
    jsTruthy (JSValue.vStr "") = false ∧
    isValidOf c3State = false := by
  exact ⟨rfl, rfl, rfl⟩

/-- Claim C3 as amended: in every controller state, `isValid` is `true` iff
the error map holds no entries at all; entries carrying the empty string
(such as those written by a blur on a passing field) also make it `false`. -/
theorem c3_isValid_iff_no_entries (s : FormState) :
    isValidOf s = true ↔ s.errors = [] := by
  unfold isValidOf jsKeys
  cases s.errors <;> simp

/-- Claim C4 (code behaviour at the failing input of the repository's own
test): with a function-valued `defaultMessage`, `createValidator`'s
validator returns the message function itself (`defaultMessage` is truthy,
so `defaultMessage || 'Validation failed'` never invokes it), not the
string `'Must be a multiple of 3'` the test expects. -/
theorem c4_function_message_not_invoked :
    createValidator multipleOfPred (CVMsg.fnMsg multipleOfMsg)
        (JSValue.vStr "5") (JSValue.vNum 3) = CVResult.func multipleOfMsg ∧
    createValidator multipleOfPred (CVMsg.fnMsg multipleOfMsg)
        (JSValue.vStr "5") (JSValue.vNum 3) ≠
      CVResult.str "Must be a multiple of 3" := by
  constructor
  · rfl
  · have h1 : createValidator multipleOfPred (CVMsg.fnMsg multipleOfMsg)
        (JSValue.vStr "5") (JSValue.vNum 3) = CVResult.func multipleOfMsg := rfl
    rw [h1]
    intro h
    exact CVResult.noConfusion h

/-- Reduction of `validateField` for a list-shaped schema entry. -/
theorem validateField_list (validators : String → Option Validator)
    (schema : List (String × FieldRules)) (allValues : List (String × JSValue))
    (name : String) (value : JSValue) (rules : List Rule)
    (hget : jsGet schema name = some (FieldRules.list rules)) :
    validateField validators schema allValues name value =
      listRuleError validators allValues name value rules := by
  rw [validateField_of_get validators schema allValues name value _ hget]
  rfl

/-- Claim C5: a field whose schema entry is an ordered rule list resolves to
the first contributed error (later rules are never consulted), and to the
empty string exactly when every rule passes; in particular, for
`{email: ['required','email']}` and the value `''` the result is
`'This field is required'`. -/
theorem c5_rule_list_first_error_wins :
    (∀ (validators : String → Option Validator) (schema : List (String × FieldRules))
        (allValues : List (String × JSValue)) (name : String) (value : JSValue)
        (rules : List Rule),
      jsGet schema name = some (FieldRules.list rules) →
        ((validateField validators schema allValues name value = JSValue.vStr "" ↔
            ∀ r ∈ rules, ruleError validators allValues name value r = none) ∧
          ∀ (l1 : List Rule) (r : Rule) (l2 : List Rule) (e : JSValue),
            rules = l1 ++ r :: l2 →
            (∀ r' ∈ l1, ruleError validators allValues name value r' = none) →
            ruleError validators allValues name value r = some e →
            validateField validators schema allValues name value = e)) ∧
    validateField builtInValidators
      [("email", FieldRules.list [Rule.str "required", Rule.str "email"])] []
      "email" (JSValue.vStr "") = JSValue.vStr "This field is required" := by
  constructor
  · intro validators schema allValues name value rules hget
    have hvf := validateField_list validators schema allValues name value rules hget
    constructor
    · rw [hvf]
      exact listRuleError_empty_iff validators allValues name value rules
    · intro l1 r l2 e hrules hpass hr
      rw [hvf, hrules]
      exact listRuleError_first validators allValues name value l1 r l2 e hpass hr
  · rfl

/-- Witness for C5: the general part applied to the singleton list
`['required']` on the empty value, where `required` is the first failing
rule. -/
theorem c5_witness :
    validateField builtInValidators [("f", FieldRules.list [Rule.str "required"])] []
      "f" (JSValue.vStr "") = JSValue.vStr "This field is required" :=
  (c5_rule_list_first_error_wins.1 builtInValidators
      [("f", FieldRules.list [Rule.str "required"])] [] "f" (JSValue.vStr "")
      [Rule.str "required"] rfl).2
    [] (Rule.str "required") [] (JSValue.vStr "This field is required") rfl
    (fun r' hr' => absurd hr' (List.not_mem_nil r')) rfl

/-- Claim C6: a submit with validate-on-submit enabled and at least one
schema field failing never invokes the callback, replaces the touched map
with exactly the current value keys, and leaves the error map holding
exactly the failing schema fields. -/
theorem c6_invalid_submit (validators : String → Option Validator)
    (schema : List (String × FieldRules)) (opts : FormOptions)
    (cb : Option (List (String × JSValue) → FormState → FormState)) (s : FormState)
    (hopts : opts.validateOnSubmit = true)
    (hfail : (jsKeys schema).any
        (fun f =>
          jsTruthy (validateField validators schema s.values f (jsGetD s.values f .vUndefined)))
      = true) :
    (handleSubmit validators schema opts cb s).2 = false ∧
    (∀ k, jsGet (handleSubmit validators schema opts cb s).1.touched k =
        if k ∈ jsKeys s.values then some true else none) ∧
    (∀ f, (jsGet (handleSubmit validators schema opts cb s).1.errors f).isSome = true ↔
        (f ∈ jsKeys schema ∧
          jsTruthy (validateField validators schema s.values f (jsGetD s.values f .vUndefined))
            = true)) := by
  have hsv : submitValidate validators schema opts { s with touched := submitTouched s.values } =
      ({ s with touched := submitTouched s.values,
                errors := (validateFormErrors validators schema s.values).1 },
        !(validateFormErrors validators schema s.values).2) := by
    unfold submitValidate
    rw [if_pos hopts]
    unfold validateForm
    rfl
  have hflag : (validateFormErrors validators schema s.values).2 = true := by
    unfold validateFormErrors
    rw [foldl_vfe_flag]
    simp [hfail]
  have hmain : handleSubmit validators schema opts cb s =
      ({ s with touched := submitTouched s.values,
                errors := (validateFormErrors validators schema s.values).1,
                isSubmitting := false }, false) := by
    unfold handleSubmit
    rw [hsv, hflag]
    simp only [Bool.not_true]
    rw [runCallback_invalid]
  refine ⟨by rw [hmain], ?_, ?_⟩
  · intro k
    rw [hmain]
    exact submitTouched_get s.values k
  · intro f
    rw [hmain]
    show (jsGet (validateFormErrors validators schema s.values).1 f).isSome = true ↔
      (f ∈ jsKeys schema ∧
        jsTruthy (validateField validators schema s.values f (jsGetD s.values f .vUndefined))
          = true)
    unfold validateFormErrors
    rw [foldl_vfe_get]
    simp [jsGet]

/-- Witness for C6: schema `{name: 'required'}` with stored value `''` —
the callback flag of the submit result is `false`. -/
theorem c6_witness :
    (handleSubmit builtInValidators [("name", FieldRules.str "required")] defaultOptions
      none (initState [("name", JSValue.vStr "")])).2 = false :=
  (c6_invalid_submit builtInValidators [("name", FieldRules.str "required")] defaultOptions
    none (initState [("name", JSValue.vStr "")]) rfl rfl).1

/-- A bare-string rule naming an unknown validator contributes nothing in a
rule list. -/
theorem ruleError_str_unknown (validators : String → Option Validator)
    (allValues : List (String × JSValue)) (name : String) (value : JSValue)
    (vname : String) (hmiss : validators vname = none) :
    ruleError validators allValues name value (Rule.str vname) = none := by
  simp only [ruleError]
  rw [hmiss]

/-- An object rule whose `validator` names an unknown validator contributes
nothing in a rule list. -/
theorem ruleError_obj_unknown (validators : String → Option Validator)
    (allValues : List (String × JSValue)) (name : String) (value : JSValue)
    (vname : String) (m : JSValue) (ps : List JSValue)
    (hmiss : validators vname = none) :
    ruleError validators allValues name value
      (Rule.obj (RuleValidator.name vname) m ps) = none := by
  simp only [ruleError, objRuleError]
  rw [hmiss]

/-- Claim C7: a rule naming a validator absent from the registry never
contributes an error: a bare-string schema entry resolves to the empty
string, a single object entry with an unknown name resolves to the empty
string, and inside a rule list such a rule can be dropped without changing
the result. -/
theorem c7_unknown_validator_skipped (validators : String → Option Validator)
    (vname : String) (hmiss : validators vname = none) :
    (∀ (schema : List (String × FieldRules)) (allValues : List (String × JSValue))
        (name : String) (value : JSValue),
      jsGet schema name = some (FieldRules.str vname) →
        validateField validators schema allValues name value = JSValue.vStr "") ∧
    (∀ (schema : List (String × FieldRules)) (allValues : List (String × JSValue))
        (name : String) (value : JSValue) (m : JSValue) (ps : List JSValue),
      jsGet schema name = some (FieldRules.obj (RuleValidator.name vname) m ps) →
        validateField validators schema allValues name value = JSValue.vStr "") ∧
    (∀ (allValues : List (String × JSValue)) (name : String) (value : JSValue)
        (l1 l2 : List Rule),
      listRuleError validators allValues name value (l1 ++ Rule.str vname :: l2) =
        listRuleError validators allValues name value (l1 ++ l2)) ∧
    (∀ (allValues : List (String × JSValue)) (name : String) (value : JSValue)
        (m : JSValue) (ps : List JSValue) (l1 l2 : List Rule),
      listRuleError validators allValues name value
          (l1 ++ Rule.obj (RuleValidator.name vname) m ps :: l2) =
        listRuleError validators allValues name value (l1 ++ l2)) := by
  refine ⟨?_, ?_, ?_, ?_⟩
  · intro schema allValues name value hget
    rw [validateField_of_get validators schema allValues name value _ hget]
    by_cases hv : vname = ""
    · subst hv; rfl
    · rw [if_neg (by simp [fieldRulesTruthy, hv])]
      simp only [fieldRulesError]
      rw [hmiss]
  · intro schema allValues name value m ps hget
    rw [validateField_of_get validators schema allValues name value _ hget]
    rw [if_neg (by simp [fieldRulesTruthy])]
    simp only [fieldRulesError, objRuleError]
    rw [hmiss]
    rfl
  · intro allValues name value l1 l2
    exact listRuleError_erase validators allValues name value _
      (ruleError_str_unknown validators allValues name value vname hmiss) l1 l2
  · intro allValues name value m ps l1 l2
    exact listRuleError_erase validators allValues name value _
      (ruleError_obj_unknown validators allValues name value vname m ps hmiss) l1 l2

/-- Witness for C7: `nosuchrule` is not a built-in; a field whose schema
entry is the bare string `nosuchrule` resolves to no error on any value. -/
theorem c7_witness :
    validateField builtInValidators [("f", FieldRules.str "nosuchrule")] []
      "f" (JSValue.vStr "") = JSValue.vStr "" :=
  (c7_unknown_validator_skipped builtInValidators "nosuchrule" rfl).1
    [("f", FieldRules.str "nosuchrule")] [] "f" (JSValue.vStr "") rfl

/-- Claim C8: `change(name, value)` never modifies the touched map, always
writes the new value into `values[name]`, and recomputes and writes exactly
the changed field's error if and only if validate-on-change is enabled and
the field is already touched; in particular, after `blur('name')` then
`change('name','')` with schema `{name:'required'}` and default options,
`errors.name` is `'This field is required'`. -/
theorem c8_change_semantics (validators : String → Option Validator)
    (schema : List (String × FieldRules)) (opts : FormOptions)
    (s : FormState) (name : String) (value : JSValue) :
    (handleChange validators schema opts s name value).touched = s.touched ∧
    jsGet (handleChange validators schema opts s name value).values name = some value ∧
    ((opts.validateOnChange && touchedFlag s.touched name) = true →
      jsGet (handleChange validators schema opts s name value).errors name =
          some (validateField validators schema s.values name value) ∧
        ∀ k, k ≠ name →
          jsGet (handleChange validators schema opts s name value).errors k =
            jsGet s.errors k) ∧
    ((opts.validateOnChange && touchedFlag s.touched name) = false →
      (handleChange validators schema opts s name value).errors = s.errors) ∧
    jsGet
      ((handleChange builtInValidators [("name", FieldRules.str "required")] defaultOptions
          (handleBlur builtInValidators [("name", FieldRules.str "required")] defaultOptions
            (initState [("name", JSValue.vStr "x")]) "name")
          "name" (JSValue.vStr "")).errors) "name" =
      some (JSValue.vStr "This field is required") := by
  have herr : (handleChange validators schema opts s name value).errors =
      if (opts.validateOnChange && touchedFlag s.touched name) = true then
        jsSet s.errors name (validateField validators schema s.values name value)
      else s.errors := rfl
  refine ⟨rfl, ?_, ?_, ?_, ?_⟩
  · exact jsGet_set_self s.values name value
  · intro hcond
    rw [herr, if_pos hcond]
    exact ⟨jsGet_set_self s.errors name _, fun k hk => jsGet_set_ne s.errors name k _ hk⟩
  · intro hcond
    rw [herr, if_neg (by simp [hcond])]
  · rfl

/-- Witness for C8: the validate-on-change branch applied to the post-blur
state of the claimed scenario. -/
theorem c8_witness :
    jsGet
      ((handleChange builtInValidators [("name", FieldRules.str "required")] defaultOptions
          (handleBlur builtInValidators [("name", FieldRules.str "required")] defaultOptions
            (initState [("name", JSValue.vStr "x")]) "name")
          "name" (JSValue.vStr "")).errors) "name" =
      some (validateField builtInValidators [("name", FieldRules.str "required")]
        (handleBlur builtInValidators [("name", FieldRules.str "required")] defaultOptions
          (initState [("name", JSValue.vStr "x")]) "name").values
        "name" (JSValue.vStr "")) :=
  ((c8_change_semantics builtInValidators [("name", FieldRules.str "required")] defaultOptions
      (handleBlur builtInValidators [("name", FieldRules.str "required")] defaultOptions
        (initState [("name", JSValue.vStr "x")]) "name")
      "name" (JSValue.vStr "")).2.2.1 rfl).1

/-- With no callback supplied, the `handleSubmit` tail reports no invocation
and only clears `isSubmitting`, whatever the validation verdict. -/
theorem runCallback_none (b : Bool) (s2 : FormState) :
    runCallback none b s2 = ({ s2 with isSubmitting := false }, false) := by
  cases b <;> rfl

/-- The validation gate never changes `touched` or `values`. -/
theorem submitValidate_preserves (validators : String → Option Validator)
    (schema : List (String × FieldRules)) (opts : FormOptions) (s1 : FormState) :
    (submitValidate validators schema opts s1).1.touched = s1.touched ∧
    (submitValidate validators schema opts s1).1.values = s1.values := by
  unfold submitValidate
  by_cases hv : opts.validateOnSubmit = true
  · rw [if_pos hv]
    unfold validateForm
    exact ⟨rfl, rfl⟩
  · rw [if_neg hv]
    exact ⟨rfl, rfl⟩

/-- Claim C9: `handleSubmit` (here with no callback, so the installed map is
also the final one) replaces the touched map wholesale with exactly the
current keys of the values object: keys of `values` read back `true`, and
every other field — previously touched or present only in the schema — has
no entry. -/
theorem c9_submit_touched_exact_value_keys (validators : String → Option Validator)
    (schema : List (String × FieldRules)) (opts : FormOptions) (s : FormState)
    (k : String) :
    jsGet (handleSubmit validators schema opts none s).1.touched k =
      if k ∈ jsKeys s.values then some true else none := by
  unfold handleSubmit
  rw [runCallback_none]
  show jsGet (submitValidate validators schema opts
      { s with touched := submitTouched s.values }).1.touched k =
    if k ∈ jsKeys s.values then some true else none
  rw [(submitValidate_preserves validators schema opts _).1]
  exact submitTouched_get s.values k

/-- Claim C10: the `value` packaged by `getFieldProps(name)` is the empty
string whenever the stored `values[name]` is falsy — `0`, `false`, `null`,
`undefined`, a missing key, or any other falsy value — and is the stored
value itself otherwise. -/
theorem c10_fieldProps_value (values : List (String × JSValue)) (name : String) :
    (jsGet values name = none → (getFieldProps values name).value = JSValue.vStr "") ∧
    (jsGet values name = some JSValue.vNull →
      (getFieldProps values name).value = JSValue.vStr "") ∧
    (jsGet values name = some JSValue.vUndefined →
      (getFieldProps values name).value = JSValue.vStr "") ∧
    (jsGet values name = some (JSValue.vBool false) →
      (getFieldProps values name).value = JSValue.vStr "") ∧
    (jsGet values name = some (JSValue.vNum 0) →
      (getFieldProps values name).value = JSValue.vStr "") ∧
    (∀ v, jsGet values name = some v → jsTruthy v = false →
      (getFieldProps values name).value = JSValue.vStr "") ∧
    (∀ v, jsGet values name = some v → jsTruthy v = true →
      (getFieldProps values name).value = v) := by
  have hval : (getFieldProps values name).value =
      if jsTruthy (jsGetD values name .vUndefined) = true then jsGetD values name .vUndefined
      else JSValue.vStr "" := rfl
  have hgen_false : ∀ v, jsGet values name = some v → jsTruthy v = false →
      (getFieldProps values name).value = JSValue.vStr "" := by
    intro v h hf
    rw [hval]
    unfold jsGetD
    rw [h]
    simp only [Option.getD_some]
    rw [if_neg (by simp [hf])]
  have hgen_true : ∀ v, jsGet values name = some v → jsTruthy v = true →
      (getFieldProps values name).value = v := by
    intro v h htv
    rw [hval]
    unfold jsGetD
    rw [h]
    simp only [Option.getD_some]
    rw [if_pos htv]
  have hnone : jsGet values name = none →
      (getFieldProps values name).value = JSValue.vStr "" := by
    intro h
    rw [hval]
    unfold jsGetD
    rw [h]
    rfl
  exact ⟨hnone, fun h => hgen_false _ h rfl, fun h => hgen_false _ h rfl,
    fun h => hgen_false _ h rfl, fun h => hgen_false _ h rfl, hgen_false, hgen_true⟩

/-- Witness for C10: a stored `0` binds as `''`; a stored non-empty string
binds as itself. -/
theorem c10_witness :
    (getFieldProps [("a", JSValue.vNum 0)] "a").value = JSValue.vStr "" ∧
    (getFieldProps [("b", JSValue.vStr "hi")] "b").value = JSValue.vStr "hi" :=
  ⟨(c10_fieldProps_value [("a", JSValue.vNum 0)] "a").2.2.2.2.1 rfl,
   (c10_fieldProps_value [("b", JSValue.vStr "hi")] "b").2.2.2.2.2.2
     (JSValue.vStr "hi") rfl rfl⟩
